import Mathlib

/-
Verification of the block-flow execution engine (Go repository `datasaur`).

The definitions below are a shallow embedding of the Go sources:
  * `internal/models/message.go`   — Message, Clone, SetHeader/SetContext,
                                     BlockExecutionContext
  * `internal/models/flow.go`      — Flow, Node, Connection, Flow.Validate
  * `internal/blocks/interface.go` — BlockInfo, Registry
  * `internal/engine/engine.go`    — FlowExecutor: ValidateFlow, PrepareFlow,
                                     StartFlow, StopFlow, PrepareAndStartFlow,
                                     GetFlowStatus, distributeMessage, and the
                                     per-group node worker loops; Engine:
                                     StartFlow, TriggerFlow

Go maps are modelled as association lists with overwrite-on-insert (matching
Go's `m[k] = v`), Go channels as bounded lists, `chan struct{}` stop channels
as numeric tokens drawn from a monotone supply together with a set of tokens
that have been closed, and goroutines as explicit worker records.  The
`crypto/rand` message-id generator is modelled as a fresh-id counter: each
call yields the current counter value and bumps it, so ids already issued are
strictly below the counter.  Timestamps are passed in explicitly as a `now`
argument.  Mutable Go maps inside `Message` (Headers, Context) are modelled
by reference: a message holds an optional index (`none` = nil map) into a
store of allocated maps, so aliasing and independence after `Clone` are
faithfully represented.
-/

namespace BlockFlow

/-- Association-list lookup, first match wins (Go map reads are modelled
through lists maintained with overwrite-on-insert, so keys are unique). -/
def assocGet (k : String) : List (String × α) → Option α
  | [] => none
  | p :: rest => if p.1 = k then some p.2 else assocGet k rest

/-- Association-list insert with overwrite, modelling Go's `m[k] = v`. -/
def assocSet (k : String) (v : α) : List (String × α) → List (String × α)
  | [] => [(k, v)]
  | p :: rest => if p.1 = k then (k, v) :: rest else p :: assocSet k v rest

/-- Go `interface{}` values as they occur in payloads and block properties. -/
inductive GoValue where
  | vnull
  | vnum (n : Int)
  | vstr (s : String)
  | vbool (b : Bool)
deriving DecidableEq, Repr

/-- Model of `models.Message` (message.go).  `headersRef`/`contextRef` are references
into `MsgStore` (a `none` reference is Go's nil map); `id` is drawn from the
fresh-id supply. -/
structure Message where
  id : Nat
  payload : GoValue
  topic : String
  headersRef : Option Nat
  timestamp : Nat
  source : String
  target : String
  contextRef : Option Nat
deriving DecidableEq, Repr

/-- The heap of allocated header/context maps plus the fresh-id supply. -/
structure MsgStore where
  hmaps : List (List (String × String))
  cmaps : List (List (String × GoValue))
  nextId : Nat
deriving DecidableEq, Repr

/-- Model of `generateID` (errors.go): returns a fresh identifier.  The crypto/rand
id is modelled by the supply counter: the returned id is the current counter
and every previously issued id is strictly smaller. -/
def generateId (st : MsgStore) : Nat × MsgStore :=
  (st.nextId, { st with nextId := st.nextId + 1 })

/-- Model of `models.NewMessage` (message.go): fresh id, given payload, freshly
allocated empty Headers and Context maps. -/
def newMessage (payload : GoValue) (now : Nat) (st : MsgStore) :
    Message × MsgStore :=
  ({ id := st.nextId, payload := payload, topic := "",
     headersRef := some st.hmaps.length, timestamp := now,
     source := "", target := "", contextRef := some st.cmaps.length },
   { hmaps := st.hmaps ++ [[]], cmaps := st.cmaps ++ [[]],
     nextId := st.nextId + 1 })

/-- Model of `Message.Clone` (message.go): new id from `generateID`, shallow-copied
payload/topic/source/target, fresh timestamp, and — when the source maps are
non-nil — headers and context copied entry-by-entry into newly allocated
maps.  A nil map stays nil, exactly as in the source. -/
def Message.clone (m : Message) (now : Nat) (st : MsgStore) :
    Message × MsgStore :=
  ({ id := st.nextId, payload := m.payload, topic := m.topic,
     headersRef := m.headersRef.map (fun _ => st.hmaps.length),
     timestamp := now, source := m.source, target := m.target,
     contextRef := m.contextRef.map (fun _ => st.cmaps.length) },
   { hmaps :=
       match m.headersRef with
       | none => st.hmaps
       | some r => st.hmaps ++ [(st.hmaps[r]?).getD []],
     cmaps :=
       match m.contextRef with
       | none => st.cmaps
       | some r => st.cmaps ++ [(st.cmaps[r]?).getD []],
     nextId := st.nextId + 1 })

/-- Model of `Message.SetHeader` (message.go): allocates the Headers map when it is
nil, then writes the key. -/
def Message.setHeader (m : Message) (k v : String) (st : MsgStore) :
    Message × MsgStore :=
  match m.headersRef with
  | none =>
      ({ m with headersRef := some st.hmaps.length },
       { st with hmaps := st.hmaps ++ [[(k, v)]] })
  | some r =>
      (m, { st with
              hmaps := st.hmaps.set r (assocSet k v ((st.hmaps[r]?).getD [])) })

/-- Model of `Message.SetContext` (message.go): allocates the Context map when it is
nil, then writes the key. -/
def Message.setContext (m : Message) (k : String) (v : GoValue)
    (st : MsgStore) : Message × MsgStore :=
  match m.contextRef with
  | none =>
      ({ m with contextRef := some st.cmaps.length },
       { st with cmaps := st.cmaps ++ [[(k, v)]] })
  | some r =>
      (m, { st with
              cmaps := st.cmaps.set r (assocSet k v ((st.cmaps[r]?).getD [])) })

/-- The header map a message currently denotes (`none` means nil map). -/
def headersOf (m : Message) (st : MsgStore) : Option (List (String × String)) :=
  m.headersRef.map (fun r => (st.hmaps[r]?).getD [])

/-- The context map a message currently denotes (`none` means nil map). -/
def contextOf (m : Message) (st : MsgStore) : Option (List (String × GoValue)) :=
  m.contextRef.map (fun r => (st.cmaps[r]?).getD [])

/-- Model of `blocks.BlockGroup` (interface.go). -/
inductive BlockGroup where
  | input
  | propagation
  | action
deriving DecidableEq, Repr

/-- Model of `blocks.BlockInfo` metadata (interface.go), restricted to the fields the
engine reads. -/
structure BlockInfo where
  type : String
  name : String
  blockGroup : BlockGroup
  inputs : Int
  outputs : Int
deriving DecidableEq, Repr

/-- Model of `blocks.Registry` (interface.go): a map from block-type name to factory.
A factory is characterised by the `BlockInfo` it reports; `CreateBlock`
returns a fresh instance of the block, which we identify by its type tag
(block behaviour enters the model as an explicit `execute` function in the
worker steps). -/
def Registry : Type := List (String × BlockInfo)

/-- Model of `Registry.Register` (interface.go): insert/overwrite under the factory's
declared type — last registration wins. -/
def registerBlock (info : BlockInfo) (r : Registry) : Registry :=
  assocSet info.type info r

/-- Model of `Registry.GetBlockInfoByType` (interface.go): `none` models the
"unknown block type" error. -/
def getBlockInfoByType (r : Registry) (blockType : String) : Option BlockInfo :=
  assocGet blockType r

/-- Model of `Registry.CreateBlock` (interface.go): fails exactly when the type is
unregistered; the factory call itself (`factory.CreateBlock()`) has no error
path in the source. -/
def createBlock (r : Registry) (blockType : String) : Option String :=
  (assocGet blockType r).map (fun _ => blockType)

/-- Model of `models.Node` (flow.go).  The presentational `X`/`Y` floats and the
`Wires` adjacency duplicate are omitted: the engine never reads them. -/
structure Node where
  id : String
  type : String
  name : String
  properties : List (String × GoValue)
  inputs : Int
  outputs : Int
deriving DecidableEq, Repr

/-- Model of `models.Connection` (flow.go).  Ports are Go `int`, hence `Int`. -/
structure Connection where
  id : String
  source : String
  sourcePort : Int
  target : String
  targetPort : Int
  label : String
deriving DecidableEq, Repr

/-- Model of `models.Flow` (flow.go), restricted to the fields the engine reads
(timestamps and version are opaque pass-through data). -/
structure Flow where
  id : String
  name : String
  nodes : List Node
  connections : List Connection
  active : Bool
deriving DecidableEq, Repr

/-- Errors produced by the modelled engine, mirroring the distinct
`fmt.Errorf`/constructor sites of the source. -/
inductive EngineError where
  | emptyFlow
  | unknownBlockType (blockType nodeId : String)
  | missingSourceNode (src : String)
  | missingTargetNode (tgt : String)
  | invalidSourcePort (port : Int) (nodeId : String) (outputs : Int)
  | invalidTargetPort (port : Int) (nodeId : String) (inputs : Int)
  | createBlockFailed (nodeId : String)
  | blockInfoFailed (nodeId : String)
  | notPrepared (flowId : String)
  | alreadyRunning (flowId : String)
  | notRunning (flowId : String)
  | flowNotFound (flowId : String)
  | duplicateNodeId (nodeId : String)
  | connSourceMissing (src : String)
  | connTargetMissing (tgt : String)
  | loadFailed (flowId : String)
  | validationFailed (e : EngineError)
  | prepareFailed (e : EngineError)
deriving DecidableEq, Repr

/-- The per-node registry check of `FlowExecutor.ValidateFlow` (engine.go):
every node's block type must be registered. -/
def validateNodeTypes (r : Registry) : List Node → Except EngineError Unit
  | [] => .ok ()
  | n :: rest =>
      match getBlockInfoByType r n.type with
      | none => .error (.unknownBlockType n.type n.id)
      | some _ => validateNodeTypes r rest

/-- The `nodeMap` built by `ValidateFlow` (engine.go): Go map insertion over
the node list, later duplicate ids overwriting earlier ones. -/
def nodeMap (nodes : List Node) : List (String × Node) :=
  nodes.foldl (fun acc n => assocSet n.id n acc) []

/-- The per-connection check of `FlowExecutor.ValidateFlow` (engine.go):
source/target must exist in the node map and the ports must be below the
referenced node's declared counts (`>=` is rejected; nothing else is). -/
def validateConnections (nm : List (String × Node)) :
    List Connection → Except EngineError Unit
  | [] => .ok ()
  | c :: rest =>
      match assocGet c.source nm with
      | none => .error (.missingSourceNode c.source)
      | some sn =>
          match assocGet c.target nm with
          | none => .error (.missingTargetNode c.target)
          | some tn =>
              if c.sourcePort ≥ sn.outputs then
                .error (.invalidSourcePort c.sourcePort c.source sn.outputs)
              else if c.targetPort ≥ tn.inputs then
                .error (.invalidTargetPort c.targetPort c.target tn.inputs)
              else validateConnections nm rest

/-- Model of `FlowExecutor.ValidateFlow` (engine.go): non-empty node list, all block
types registered, all connections well formed.  (The nil-pointer guard of the
source has no counterpart for a structure value.) -/
def validateFlow (r : Registry) (f : Flow) : Except EngineError Unit :=
  if f.nodes.isEmpty then .error .emptyFlow
  else
    match validateNodeTypes r f.nodes with
    | .error e => .error e
    | .ok _ => validateConnections (nodeMap f.nodes) f.connections

/-- Model of `models.Flow.Validate` (flow.go): rejects duplicate node ids, then checks
that every connection's endpoints name existing nodes.  `seen` carries the
`nodeIDs` set built so far. -/
def checkDuplicateIds : List Node → List String → Except EngineError (List String)
  | [], seen => .ok seen
  | n :: rest, seen =>
      if n.id ∈ seen then .error (.duplicateNodeId n.id)
      else checkDuplicateIds rest (n.id :: seen)

/-- The connection-existence loop of `models.Flow.Validate` (flow.go). -/
def checkConnectionIds (ids : List String) :
    List Connection → Except EngineError Unit
  | [] => .ok ()
  | c :: rest =>
      if c.source ∉ ids then .error (.connSourceMissing c.source)
      else if c.target ∉ ids then .error (.connTargetMissing c.target)
      else checkConnectionIds ids rest

/-- Model of `models.Flow.Validate` (flow.go), as called by `Engine.StartFlow`. -/
def modelsFlowValidate (f : Flow) : Except EngineError Unit :=
  match checkDuplicateIds f.nodes [] with
  | .error e => .error e
  | .ok _ => checkConnectionIds (f.nodes.map Node.id) f.connections

/-- Capacity of a runtime node's buffered input channel
(`make(chan *models.Message, 100)`, engine.go). -/
def chanCapacity : Nat := 100

/-- Model of `engine.RuntimeNode` (engine.go).  `block` is the instance returned by
`CreateBlock` (identified by its type tag); `inputChan` is the buffered input
channel's current contents, oldest first.  The unused `OutputChan` and the
per-node `StopChan` — which is allocated but never closed anywhere in the
source — are omitted. -/
structure RuntimeNode where
  id : String
  type : String
  name : String
  block : String
  properties : List (String × GoValue)
  inputChan : List Message
  outputConnections : List String
deriving DecidableEq, Repr

/-- Model of `engine.RuntimeFlow` (engine.go): node map, connection list, the flow's
stop channel (`stopToken` identifies it; whether it has been closed is
recorded globally in `ExecutorState.firedTokens`) and the running flag. -/
structure RuntimeFlow where
  id : String
  name : String
  nodes : List (String × RuntimeNode)
  connections : List Connection
  stopToken : Nat
  running : Bool
deriving DecidableEq, Repr

/-- The runtime node `PrepareFlow` builds for one definition node: fresh empty
input channel and the targets of every connection whose source is this node,
in declaration order. -/
def mkRuntimeNode (f : Flow) (n : Node) : RuntimeNode :=
  { id := n.id, type := n.type, name := n.name, block := n.type,
    properties := n.properties, inputChan := [],
    outputConnections :=
      (f.connections.filter (fun c => c.source = n.id)).map Connection.target }

/-- The node-construction loop of `FlowExecutor.PrepareFlow` (engine.go):
instantiate each block via the registry, look up its metadata, and insert the
runtime node under the node's id (Go map write). -/
def prepareNodes (r : Registry) (f : Flow) :
    List Node → List (String × RuntimeNode) →
    Except EngineError (List (String × RuntimeNode))
  | [], acc => .ok acc
  | n :: rest, acc =>
      match createBlock r n.type with
      | none => .error (.createBlockFailed n.id)
      | some blk =>
          match getBlockInfoByType r n.type with
          | none => .error (.blockInfoFailed n.id)
          | some _ =>
              prepareNodes r f rest
                (assocSet n.id { mkRuntimeNode f n with block := blk } acc)

/-- Model of `FlowExecutor.PrepareFlow` (engine.go): validate, then build the runtime
flow in the stopped state with a freshly allocated stop channel.  `tok` is
the stop-channel supply; the returned counter reflects the allocation. -/
def prepareFlow (r : Registry) (f : Flow) (tok : Nat) :
    Except EngineError (RuntimeFlow × Nat) :=
  match validateFlow r f with
  | .error e => .error (.validationFailed e)
  | .ok _ =>
      match prepareNodes r f f.nodes [] with
      | .error e => .error e
      | .ok ns =>
          .ok ({ id := f.id, name := f.name, nodes := ns,
                 connections := f.connections, stopToken := tok,
                 running := false }, tok + 1)

/-- A goroutine spawned by `StartFlow` (`go fe.runNode(...)`): it belongs to
one flow run and selects on the stop channel it was handed at spawn time. -/
structure ExecWorker where
  flowId : String
  nodeId : String
  stopToken : Nat
deriving DecidableEq, Repr

/-- Model of `engine.FlowExecutor` state (engine.go): the `flows` map, plus the live
worker goroutines and the set of stop channels that have been closed
(`firedTokens`), and the stop-channel supply. -/
structure ExecutorState where
  flows : List (String × RuntimeFlow)
  workers : List ExecWorker
  firedTokens : List Nat
  nextToken : Nat
deriving DecidableEq, Repr

/-- The empty executor produced by `NewFlowExecutor` (engine.go). -/
def newFlowExecutor : ExecutorState :=
  { flows := [], workers := [], firedTokens := [], nextToken := 0 }

/-- Model of `FlowExecutor.StartFlow` (engine.go): error if the flow is not in the
`flows` map or already running; otherwise set `Running`, spawn one worker per
runtime node (each handed the flow's current stop channel), and return.  The
spawned worker list is returned alongside the new state. -/
def startFlow (flowId : String) (st : ExecutorState) :
    Except EngineError (ExecutorState × List ExecWorker) :=
  match assocGet flowId st.flows with
  | none => .error (.notPrepared flowId)
  | some rf =>
      if rf.running then .error (.alreadyRunning flowId)
      else
        let spawned := rf.nodes.map (fun p =>
          { flowId := flowId, nodeId := p.1, stopToken := rf.stopToken })
        .ok ({ st with
                 flows := assocSet flowId { rf with running := true } st.flows,
                 workers := st.workers ++ spawned }, spawned)

/-- Model of `FlowExecutor.StopFlow` (engine.go): error if the flow is unknown or not
running; otherwise close the flow's stop channel, wait until every worker of
this run has exited (they all select on that channel), and clear `Running`.
Workers holding other stop channels — e.g. orphans of an overwritten run —
are not waited on and survive. -/
def stopFlow (flowId : String) (st : ExecutorState) :
    Except EngineError ExecutorState :=
  match assocGet flowId st.flows with
  | none => .error (.notRunning flowId)
  | some rf =>
      if rf.running then
        .ok { st with
                flows := assocSet flowId { rf with running := false } st.flows,
                firedTokens := rf.stopToken :: st.firedTokens,
                workers := st.workers.filter
                  (fun w => w.stopToken ≠ rf.stopToken) }
      else .error (.notRunning flowId)

/-- Model of `FlowExecutor.PrepareAndStartFlow` (engine.go): prepare, store the fresh
runtime flow under `flows[flow.ID]` — overwriting whatever was there, running
or not — then start it. -/
def prepareAndStartFlow (r : Registry) (f : Flow) (st : ExecutorState) :
    Except EngineError (ExecutorState × List ExecWorker) :=
  match prepareFlow r f st.nextToken with
  | .error e => .error (.prepareFailed e)
  | .ok (rf, tok) =>
      startFlow f.id
        { st with flows := assocSet f.id rf st.flows, nextToken := tok }

/-- Model of `FlowExecutor.GetFlowStatus` (engine.go). -/
def getFlowStatus (flowId : String) (st : ExecutorState) :
    Except EngineError Bool :=
  match assocGet flowId st.flows with
  | none => .error (.flowNotFound flowId)
  | some rf => .ok rf.running

/-- Model of `Engine.StartFlow` (engine.go): load the flow from storage, run
`models.Flow.Validate`, then `PrepareAndStartFlow`. -/
def engineStartFlow (storage : List (String × Flow)) (r : Registry)
    (flowId : String) (st : ExecutorState) :
    Except EngineError (ExecutorState × List ExecWorker) :=
  match assocGet flowId storage with
  | none => .error (.loadFailed flowId)
  | some f =>
      match modelsFlowValidate f with
      | .error e => .error (.validationFailed e)
      | .ok _ => prepareAndStartFlow r f st

/-- Model of `Engine.TriggerFlow` (engine.go): the input message parameter is unused —
the body is exactly `return e.StartFlow(ctx, flowID)`. -/
def engineTriggerFlow (storage : List (String × Flow)) (r : Registry)
    (flowId : String) (_input : Option Message) (st : ExecutorState) :
    Except EngineError (ExecutorState × List ExecWorker) :=
  engineStartFlow storage r flowId st

/-- Model of `models.BlockExecutionContext` (message.go).  `goContext` is the identity
of the cancellation signal installed in the `Context` field (`none` = nil);
`state` is the per-node key/value store (`none` = nil map); `hasLogger`
records whether a logger was supplied. -/
structure BlockExecutionContext where
  goContext : Option Nat
  nodeId : String
  flowId : String
  message : Option Message
  hasLogger : Bool
  state : Option (List (String × GoValue))
  debug : Bool
  timestamp : Nat
deriving DecidableEq, Repr

/-- The execution context the node workers build (engine.go, the literal
`&models.BlockExecutionContext{NodeID: ..., Logger: ..., Message: ...}` in
`runInputNode` / `runPropagationNode` / `runActionNode`): only `NodeID`,
`Logger` and `Message` are set; `Context`, `FlowID`, `State`, `Debug` and
`Timestamp` keep their zero values. -/
def workerCtx (nodeId : String) (msg : Option Message) :
    BlockExecutionContext :=
  { goContext := none, nodeId := nodeId, flowId := "", message := msg,
    hasLogger := true, state := none, debug := false, timestamp := 0 }

/-- The behaviour of a block instance's `Execute`, supplied externally (the
engine treats blocks as opaque behind the `blocks.Block` interface). -/
def ExecuteFn : Type :=
  BlockExecutionContext → List (String × GoValue) →
    Except String (List Message)

/-- Log record kinds emitted by the modelled executor. -/
inductive LogEvent where
  | debugSent (src dst : String)
  | warnQueueFull (src dst : String)
  | errTargetMissing (src dst : String)
  | errNodeExec (nodeId : String)
deriving DecidableEq, Repr

/-- The per-target loop of `FlowExecutor.distributeMessage` (engine.go): for
each recorded downstream node id, look the target up (a missing target only
logs an error), clone the message, and do a non-blocking send — enqueue when
the buffered channel has room, otherwise drop the clone and log a warning.
No branch returns an error: the function's Go signature has no return value.
-/
def distribLoop (srcId : String) (msg : Message) :
    List String → List (String × RuntimeNode) → MsgStore → Nat →
    List (String × RuntimeNode) × MsgStore × List LogEvent
  | [], nodes, st, _ => (nodes, st, [])
  | t :: rest, nodes, st, now =>
      match assocGet t nodes with
      | none =>
          let r := distribLoop srcId msg rest nodes st now
          (r.1, r.2.1, .errTargetMissing srcId t :: r.2.2)
      | some tn =>
          let c := (msg.clone now st).1
          let st1 := (msg.clone now st).2
          if tn.inputChan.length < chanCapacity then
            let r := distribLoop srcId msg rest
              (assocSet t { tn with inputChan := tn.inputChan ++ [c] } nodes)
              st1 now
            (r.1, r.2.1, .debugSent srcId t :: r.2.2)
          else
            let r := distribLoop srcId msg rest nodes st1 now
            (r.1, r.2.1, .warnQueueFull srcId t :: r.2.2)

/-- Model of `FlowExecutor.distributeMessage` (engine.go). -/
def distributeMessage (sourceNode : RuntimeNode) (msg : Message)
    (nodes : List (String × RuntimeNode)) (st : MsgStore) (now : Nat) :
    List (String × RuntimeNode) × MsgStore × List LogEvent :=
  distribLoop sourceNode.id msg sourceNode.outputConnections nodes st now

/-- Fan-out of every message returned by one `Execute` call (the
`for _, msg := range messages` loops in the worker bodies). -/
def distributeAll (sourceNode : RuntimeNode) :
    List Message → List (String × RuntimeNode) → MsgStore → Nat →
    List (String × RuntimeNode) × MsgStore × List LogEvent
  | [], nodes, st, _ => (nodes, st, [])
  | m :: rest, nodes, st, now =>
      let r1 := distributeMessage sourceNode m nodes st now
      let r2 := distributeAll sourceNode rest r1.1 r1.2.1 now
      (r2.1, r2.2.1, r1.2.2 ++ r2.2.2)

/-- The body of one ticker firing in `runInputNode` (engine.go), after the
context has been built: call `Execute` with no input message; on error log it
and continue to the next tick; otherwise distribute every returned message.
-/
def inputDispatch (execute : ExecuteFn) (ctx : BlockExecutionContext)
    (node : RuntimeNode) (nodes : List (String × RuntimeNode))
    (st : MsgStore) (now : Nat) :
    List (String × RuntimeNode) × MsgStore × List LogEvent :=
  match execute ctx node.properties with
  | .error _ => (nodes, st, [.errNodeExec node.id])
  | .ok msgs => distributeAll node msgs nodes st now

/-- One ticker firing of `runInputNode` (engine.go). -/
def runInputNodeTick (execute : ExecuteFn) (node : RuntimeNode)
    (nodes : List (String × RuntimeNode)) (st : MsgStore) (now : Nat) :
    List (String × RuntimeNode) × MsgStore × List LogEvent :=
  inputDispatch execute (workerCtx node.id none) node nodes st now

/-- The ticker period of `runInputNode` (engine.go):
`time.NewTicker(1 * time.Second)` — a constant 1000 ms, taking no input from
the node or its properties. -/
def inputTickerIntervalMs : Nat := 1000

/-- The body of one message receipt in `runPropagationNode` (engine.go),
after the dequeue and context construction: call `Execute` with the dequeued
message; on error log and continue; otherwise distribute every output. -/
def propagationDispatch (execute : ExecuteFn) (ctx : BlockExecutionContext)
    (node : RuntimeNode) (nodes : List (String × RuntimeNode))
    (st : MsgStore) (now : Nat) :
    List (String × RuntimeNode) × MsgStore × List LogEvent :=
  match execute ctx node.properties with
  | .error _ => (nodes, st, [.errNodeExec node.id])
  | .ok msgs => distributeAll node msgs nodes st now

/-- One loop iteration of `runPropagationNode` (engine.go): block until the
input channel yields a message (an empty channel means the worker stays
suspended — no step), dequeue it, and dispatch. -/
def runPropagationStep (execute : ExecuteFn) (node : RuntimeNode)
    (nodes : List (String × RuntimeNode)) (st : MsgStore) (now : Nat) :
    List (String × RuntimeNode) × MsgStore × List LogEvent :=
  match node.inputChan with
  | [] => (nodes, st, [])
  | m :: rest =>
      let node' := { node with inputChan := rest }
      propagationDispatch execute (workerCtx node.id (some m)) node'
        (assocSet node.id node' nodes) st now

/-- The body of one message receipt in `runActionNode` (engine.go): call
`Execute` with the dequeued message and discard any returned messages; an
error is only logged. -/
def actionDispatch (execute : ExecuteFn) (ctx : BlockExecutionContext)
    (node : RuntimeNode) (nodes : List (String × RuntimeNode))
    (st : MsgStore) :
    List (String × RuntimeNode) × MsgStore × List LogEvent :=
  match execute ctx node.properties with
  | .error _ => (nodes, st, [.errNodeExec node.id])
  | .ok _ => (nodes, st, [])

/-- One loop iteration of `runActionNode` (engine.go). -/
def runActionStep (execute : ExecuteFn) (node : RuntimeNode)
    (nodes : List (String × RuntimeNode)) (st : MsgStore) :
    List (String × RuntimeNode) × MsgStore × List LogEvent :=
  match node.inputChan with
  | [] => (nodes, st, [])
  | m :: rest =>
      let node' := { node with inputChan := rest }
      actionDispatch execute (workerCtx node.id (some m)) node'
        (assocSet node.id node' nodes) st

/-! Concrete instances used by counterexamples and witnesses: the built-in
`inject` (Input group, 0 in / 1 out) and `debug` (Action group, 1 in / 0 out)
blocks of `internal/blocks/builtin`, and a two-node flow `inject → debug`. -/

/-- Metadata of the built-in inject block (`InjectBlockFactory.GetBlockInfo`).
-/
def injectInfo : BlockInfo :=
  { type := "inject", name := "Inject", blockGroup := .input,
    inputs := 0, outputs := 1 }

/-- Metadata of the built-in debug block (`DebugBlockFactory.GetBlockInfo`).
-/
def debugInfo : BlockInfo :=
  { type := "debug", name := "Debug", blockGroup := .action,
    inputs := 1, outputs := 0 }

/-- A registry holding the inject and debug built-ins
(`RegisterBuiltinBlocks`, restricted to the two types the examples use). -/
def exRegistry : Registry :=
  registerBlock debugInfo (registerBlock injectInfo [])

/-- An inject node whose `interval` property is 5000 ms. -/
def exInjectNode : Node :=
  { id := "a", type := "inject", name := "Inject A",
    properties := [("interval", .vnum 5000), ("payload", .vstr "5")],
    inputs := 0, outputs := 1 }

/-- A debug (action) node. -/
def exDebugNode : Node :=
  { id := "b", type := "debug", name := "Debug B", properties := [],
    inputs := 1, outputs := 0 }

/-- The wire `a` output 0 → `b` input 0. -/
def exConn : Connection :=
  { id := "c1", source := "a", sourcePort := 0, target := "b",
    targetPort := 0, label := "" }

/-- A well-formed two-node flow. -/
def exFlow : Flow :=
  { id := "flow1", name := "Example", nodes := [exInjectNode, exDebugNode],
    connections := [exConn], active := true }

/-- Storage holding `exFlow` under its id. -/
def exStorage : List (String × Flow) := [("flow1", exFlow)]

/-- The wire `a` output port `-1` → `b` input 0: a negative source port. -/
def exNegConn : Connection :=
  { id := "c2", source := "a", sourcePort := -1, target := "b",
    targetPort := 0, label := "" }

/-- Variant of `exFlow` with the negative-port connection instead. -/
def exNegFlow : Flow :=
  { id := "flow2", name := "Negative", nodes := [exInjectNode, exDebugNode],
    connections := [exNegConn], active := true }

/-- Whether a start-shaped engine call returned without error. -/
def startIsOk (r : Except EngineError (ExecutorState × List ExecWorker)) :
    Bool :=
  match r with
  | .ok _ => true
  | .error _ => false

/-- Extract the success value of a start-shaped engine call, with a default.
-/
def okPart (d : ExecutorState × List ExecWorker)
    (r : Except EngineError (ExecutorState × List ExecWorker)) :
    ExecutorState × List ExecWorker :=
  match r with
  | .ok p => p
  | .error _ => d

/-- State and worker set after `PrepareAndStartFlow` of `exFlow` on a fresh
executor. -/
def exRun1 : ExecutorState × List ExecWorker :=
  okPart (newFlowExecutor, [])
    (prepareAndStartFlow exRegistry exFlow newFlowExecutor)

/-- State and worker set after a second `PrepareAndStartFlow` of `exFlow`,
issued while the first run is still marked Running. -/
def exRun2 : ExecutorState × List ExecWorker :=
  okPart (newFlowExecutor, []) (prepareAndStartFlow exRegistry exFlow exRun1.1)

/-- State after `StopFlow` of the first run. -/
def exStop2 : ExecutorState :=
  match stopFlow "flow1" exRun1.1 with
  | .ok s => s
  | .error _ => exRun1.1

/-- State and worker set after a direct `FlowExecutor.StartFlow` issued after
the stop (no re-preparation). -/
def exRun3 : ExecutorState × List ExecWorker :=
  okPart (exStop2, []) (startFlow "flow1" exStop2)

/-- True when every input queue of every prepared flow is empty. -/
def allQueuesEmpty (st : ExecutorState) : Bool :=
  st.flows.all (fun p => p.2.nodes.all (fun q => q.2.inputChan.isEmpty))

/-- A source runtime node fanning out to targets `b` and `c`. -/
def exRtA : RuntimeNode :=
  { id := "a", type := "inject", name := "A", block := "inject",
    properties := [], inputChan := [], outputConnections := ["b", "c"] }

/-- A target runtime node whose input queue is full (100 buffered messages).
-/
def exRtB : RuntimeNode :=
  { id := "b", type := "debug", name := "B", block := "debug",
    properties := [], inputChan := List.replicate chanCapacity
      { id := 99, payload := .vnum 0, topic := "", headersRef := none,
        timestamp := 0, source := "", target := "", contextRef := none },
    outputConnections := [] }

/-- A target runtime node with an empty input queue. -/
def exRtC : RuntimeNode :=
  { id := "c", type := "debug", name := "C", block := "debug",
    properties := [], inputChan := [], outputConnections := [] }

/-- An unconnected runtime node. -/
def exRtD : RuntimeNode :=
  { id := "d", type := "debug", name := "D", block := "debug",
    properties := [], inputChan := [], outputConnections := [] }

/-- The node map for the fan-out scenario. -/
def exNodesC5 : List (String × RuntimeNode) :=
  [("b", exRtB), ("c", exRtC), ("d", exRtD)]

/-- A concrete message with allocated header and context maps. -/
def exMsgC4 : Message :=
  { id := 0, payload := .vnum 5, topic := "t", headersRef := some 0,
    timestamp := 0, source := "a", target := "b", contextRef := some 0 }

/-- A store in which `exMsgC4` is well formed. -/
def exStoreC4 : MsgStore :=
  { hmaps := [[("h", "v")]], cmaps := [[("c", .vnum 1)]], nextId := 1 }

/-- A block behaviour returning no output messages. -/
def exExecNone : ExecuteFn := fun _ _ => .ok []

/-- A runtime action node with one queued message. -/
def exRtQ : RuntimeNode :=
  { id := "b", type := "debug", name := "B", block := "debug",
    properties := [], inputChan := [exMsgC4], outputConnections := [] }

/-- A message with payload 42. -/
def exMsg42 : Message :=
  { id := 50, payload := .vnum 42, topic := "", headersRef := none,
    timestamp := 0, source := "", target := "", contextRef := none }

/-- A message with payload 7. -/
def exMsg7 : Message :=
  { id := 51, payload := .vnum 7, topic := "", headersRef := none,
    timestamp := 0, source := "", target := "", contextRef := none }

/-- The runtime flow stored for `flow1` after the first prepare-and-start. -/
def exRf1 : RuntimeFlow :=
  (assocGet "flow1" exRun1.1.flows).getD
    { id := "", name := "", nodes := [], connections := [], stopToken := 0,
      running := false }

/-- State and worker set after triggering `flow1` with payload 42. -/
def exTrig42 : ExecutorState × List ExecWorker :=
  okPart (newFlowExecutor, [])
    (engineTriggerFlow exStorage exRegistry "flow1" (some exMsg42)
      newFlowExecutor)

/-! ## Helper lemmas about association lists -/

theorem assocGet_assocSet_self (k : String) (v : α) (m : List (String × α)) :
    assocGet k (assocSet k v m) = some v := by
  induction m with
  | nil => simp [assocGet, assocSet]
  | cons p rest ih =>
      by_cases h : p.1 = k
      · simp [assocGet, assocSet, h]
      · simp [assocGet, assocSet, h, ih]

theorem assocGet_assocSet_ne (k k' : String) (v : α) (m : List (String × α))
    (h : k' ≠ k) : assocGet k' (assocSet k v m) = assocGet k' m := by
  induction m with
  | nil => simp [assocGet, assocSet, Ne.symm h]
  | cons p rest ih =>
      by_cases hp : p.1 = k
      · simp [assocGet, assocSet, hp, Ne.symm h]
      · simp [assocGet, assocSet, hp, ih]

theorem prepareFlow_inv (r : Registry) (f : Flow) (tok tok' : Nat)
    (rf : RuntimeFlow) (h : prepareFlow r f tok = .ok (rf, tok')) :
    rf.stopToken = tok ∧ rf.running = false ∧ tok' = tok + 1 := by
  cases hv : validateFlow r f with
  | error e =>
      simp only [prepareFlow, hv] at h
      exact Except.noConfusion h
  | ok u =>
      cases u
      cases hp : prepareNodes r f f.nodes [] with
      | error e =>
          simp only [prepareFlow, hv, hp] at h
          exact Except.noConfusion h
      | ok ns =>
          simp only [prepareFlow, hv, hp, Except.ok.injEq, Prod.mk.injEq] at h
          obtain ⟨h1, h2⟩ := h
          subst h1
          exact ⟨rfl, rfl, h2.symm⟩

/-! ## Helper lemmas about validation -/

theorem validateNodeTypes_ok_iff (r : Registry) (ns : List Node) :
    validateNodeTypes r ns = .ok () ↔
      ∀ n ∈ ns, (getBlockInfoByType r n.type).isSome := by
  induction ns with
  | nil => simp [validateNodeTypes]
  | cons n rest ih =>
      cases hb : getBlockInfoByType r n.type with
      | none =>
          simp only [validateNodeTypes, hb]
          constructor
          · intro hok; exact absurd hok (by simp)
          · intro hall
            have hn := hall n (by simp)
            rw [hb] at hn
            simp at hn
      | some info =>
          simp only [validateNodeTypes, hb]
          rw [ih, List.forall_mem_cons]
          simp [hb]

theorem validateConnections_ok_iff (nm : List (String × Node))
    (cs : List Connection) :
    validateConnections nm cs = .ok () ↔
      ∀ c ∈ cs, ∃ sn tn, assocGet c.source nm = some sn ∧
        assocGet c.target nm = some tn ∧
        c.sourcePort < sn.outputs ∧ c.targetPort < tn.inputs := by
  induction cs with
  | nil => simp [validateConnections]
  | cons c rest ih =>
      rw [List.forall_mem_cons, ← ih]
      cases hs : assocGet c.source nm with
      | none =>
          simp only [validateConnections, hs]
          constructor
          · intro hok; exact Except.noConfusion hok
          · rintro ⟨⟨sn, tn, hsn, -⟩, -⟩
            exact Option.noConfusion hsn
      | some sn =>
          cases ht : assocGet c.target nm with
          | none =>
              simp only [validateConnections, hs, ht]
              constructor
              · intro hok; exact Except.noConfusion hok
              · rintro ⟨⟨sn', tn, -, htn, -⟩, -⟩
                exact Option.noConfusion htn
          | some tn =>
              by_cases hsp : c.sourcePort ≥ sn.outputs
              · simp only [validateConnections, hs, ht, if_pos hsp]
                constructor
                · intro hok; exact Except.noConfusion hok
                · rintro ⟨⟨sn', tn', hsn', -, hlt, -⟩, -⟩
                  rw [Option.some.injEq] at hsn'
                  subst hsn'
                  exact absurd hlt (not_lt.mpr hsp)
              · by_cases htp : c.targetPort ≥ tn.inputs
                · simp only [validateConnections, hs, ht, if_neg hsp,
                    if_pos htp]
                  constructor
                  · intro hok; exact Except.noConfusion hok
                  · rintro ⟨⟨sn', tn', -, htn', -, hlt⟩, -⟩
                    rw [Option.some.injEq] at htn'
                    subst htn'
                    exact absurd hlt (not_lt.mpr htp)
                · simp only [validateConnections, hs, ht, if_neg hsp,
                    if_neg htp]
                  constructor
                  · intro hok
                    exact ⟨⟨sn, tn, rfl, rfl, not_le.mp hsp, not_le.mp htp⟩,
                      hok⟩
                  · rintro ⟨-, hrest⟩
                    exact hrest

theorem validateFlow_ok_iff (r : Registry) (f : Flow) :
    validateFlow r f = .ok () ↔
      f.nodes ≠ [] ∧
      (∀ n ∈ f.nodes, (getBlockInfoByType r n.type).isSome) ∧
      ∀ c ∈ f.connections, ∃ sn tn,
        assocGet c.source (nodeMap f.nodes) = some sn ∧
        assocGet c.target (nodeMap f.nodes) = some tn ∧
        c.sourcePort < sn.outputs ∧ c.targetPort < tn.inputs := by
  cases hemp : f.nodes.isEmpty with
  | true =>
      simp only [validateFlow, hemp, if_true]
      constructor
      · intro hok; exact Except.noConfusion hok
      · rintro ⟨hne, -⟩
        exact absurd (List.isEmpty_iff.mp hemp) hne
  | false =>
      have hne : f.nodes ≠ [] := by
        intro hnil
        rw [hnil] at hemp
        simp at hemp
      cases hv : validateNodeTypes r f.nodes with
      | error e =>
          simp only [validateFlow, hemp, if_false, hv]
          constructor
          · intro hok; exact Except.noConfusion hok
          · rintro ⟨-, hall, -⟩
            rw [(validateNodeTypes_ok_iff r f.nodes).mpr hall] at hv
            exact Except.noConfusion hv
      | ok u =>
          cases u
          simp only [validateFlow, hemp, Bool.false_eq_true, if_false, hv]
          rw [validateConnections_ok_iff]
          constructor
          · intro h
            exact ⟨hne, (validateNodeTypes_ok_iff r f.nodes).mp hv, h⟩
          · rintro ⟨-, -, h⟩
            exact h

/-- CLAIM C2: `Validate(flowDefinition)` fails exactly when the flow has zero
nodes, or some node references a block type not in the registry, or some
connection references a source/target node id absent from the node map, or a
port index ≥ the referenced node's declared port count; whenever none of
these conditions holds, Validate succeeds.  (Node references are resolved
through the Go node map, later duplicate ids overwriting earlier ones.) -/
theorem spec_c2_validate_ok_iff (r : Registry) (f : Flow) :
    validateFlow r f = .ok () ↔
      f.nodes ≠ [] ∧
      (∀ n ∈ f.nodes, (getBlockInfoByType r n.type).isSome) ∧
      ∀ c ∈ f.connections, ∃ sn tn,
        assocGet c.source (nodeMap f.nodes) = some sn ∧
        assocGet c.target (nodeMap f.nodes) = some tn ∧
        c.sourcePort < sn.outputs ∧ c.targetPort < tn.inputs :=
  validateFlow_ok_iff r f

/-! ## Helper lemmas about preparation -/

theorem prepareNodes_ok (r : Registry) (f : Flow) (ns : List Node)
    (acc : List (String × RuntimeNode))
    (hall : ∀ n ∈ ns, (getBlockInfoByType r n.type).isSome) :
    prepareNodes r f ns acc =
      .ok (ns.foldl (fun a n => assocSet n.id (mkRuntimeNode f n) a) acc) := by
  induction ns generalizing acc with
  | nil => rfl
  | cons n rest ih =>
      have hn := hall n (by simp)
      rw [Option.isSome_iff_exists] at hn
      obtain ⟨info, hinfo⟩ := hn
      have hget : assocGet n.type r = some info := hinfo
      have hcb : createBlock r n.type = some n.type := by
        simp [createBlock, hget]
      simp only [prepareNodes, hcb, hinfo]
      rw [ih _ (fun m hm => hall m (by simp [hm]))]
      simp [mkRuntimeNode]

theorem assocGet_foldl_insert_notMem (g : Node → RuntimeNode) (k : String)
    (ns : List Node) (acc : List (String × RuntimeNode))
    (h : k ∉ ns.map Node.id) :
    assocGet k (ns.foldl (fun a n => assocSet n.id (g n) a) acc) =
      assocGet k acc := by
  induction ns generalizing acc with
  | nil => rfl
  | cons n rest ih =>
      have hk : k ≠ n.id := by
        intro he
        exact h (by simp [he])
      simp only [List.foldl_cons]
      rw [ih _ (fun hm => h (by simp [hm])), assocGet_assocSet_ne _ _ _ _ hk]

theorem assocGet_foldl_insert_mem (g : Node → RuntimeNode)
    (ns : List Node) (acc : List (String × RuntimeNode))
    (hnd : (ns.map Node.id).Nodup) (n : Node) (hn : n ∈ ns) :
    assocGet n.id (ns.foldl (fun a m => assocSet m.id (g m) a) acc) =
      some (g n) := by
  induction ns generalizing acc with
  | nil => cases hn
  | cons hd tl ih =>
      simp only [List.map_cons, List.nodup_cons] at hnd
      rcases List.mem_cons.mp hn with he | htl
      · subst he
        simp only [List.foldl_cons]
        rw [assocGet_foldl_insert_notMem _ _ _ _ hnd.1]
        exact assocGet_assocSet_self _ _ _
      · exact ih _ hnd.2 htl

theorem length_assocSet_notMem (k : String) (v : α) (m : List (String × α))
    (h : assocGet k m = none) :
    (assocSet k v m).length = m.length + 1 := by
  induction m with
  | nil => rfl
  | cons p rest ih =>
      by_cases hp : p.1 = k
      · simp [assocGet, hp] at h
      · simp only [assocSet, if_neg hp, List.length_cons]
        rw [ih (by simpa [assocGet, hp] using h)]

theorem length_foldl_insert (g : Node → RuntimeNode) (ns : List Node)
    (acc : List (String × RuntimeNode))
    (hnd : (ns.map Node.id).Nodup)
    (hfresh : ∀ n ∈ ns, assocGet n.id acc = none) :
    (ns.foldl (fun a n => assocSet n.id (g n) a) acc).length =
      acc.length + ns.length := by
  induction ns generalizing acc with
  | nil => rfl
  | cons hd tl ih =>
      simp only [List.map_cons, List.nodup_cons] at hnd
      simp only [List.foldl_cons, List.length_cons]
      have hfresh' : ∀ n ∈ tl, assocGet n.id (assocSet hd.id (g hd) acc) = none := by
        intro n hn
        have hne : n.id ≠ hd.id := by
          intro he
          exact hnd.1 (he ▸ List.mem_map_of_mem Node.id hn)
        rw [assocGet_assocSet_ne _ _ _ _ hne]
        exact hfresh n (by simp [hn])
      rw [ih _ hnd.2 hfresh',
        length_assocSet_notMem _ _ _ (hfresh hd (by simp))]
      omega

/-- CLAIM C3: once `ValidateFlow` has passed (and node ids are unique, the
documented invariant), `PrepareFlow` succeeds — block instantiation through
the registry cannot fail for a registered type, since the factory call has no
error path — and the produced runtime flow is not Running, holds exactly one
runtime node per definition node, and keys it by that node's id. -/
theorem spec_c3_prepare_ok (r : Registry) (f : Flow) (tok : Nat)
    (hval : validateFlow r f = .ok ())
    (hnd : (f.nodes.map Node.id).Nodup) :
    ∃ rf, prepareFlow r f tok = .ok (rf, tok + 1) ∧
      rf.running = false ∧ rf.stopToken = tok ∧
      rf.nodes.length = f.nodes.length ∧
      ∀ n ∈ f.nodes, assocGet n.id rf.nodes = some (mkRuntimeNode f n) := by
  have hall := ((validateFlow_ok_iff r f).mp hval).2.1
  have hprep := prepareNodes_ok r f f.nodes [] hall
  refine ⟨{ id := f.id, name := f.name,
            nodes := f.nodes.foldl
              (fun a n => assocSet n.id (mkRuntimeNode f n) a) [],
            connections := f.connections, stopToken := tok,
            running := false }, ?_, rfl, rfl, ?_, ?_⟩
  · simp only [prepareFlow, hval, hprep]
  · simpa using
      length_foldl_insert (mkRuntimeNode f) f.nodes [] hnd
        (fun n _ => rfl)
  · intro n hn
    exact assocGet_foldl_insert_mem (mkRuntimeNode f) f.nodes [] hnd n hn

/-- Witness for C3 at the concrete two-node flow. -/
theorem spec_c3_prepare_ok_witness :
    validateFlow exRegistry exFlow = .ok () ∧
    (exFlow.nodes.map Node.id).Nodup ∧
    ∃ rf, prepareFlow exRegistry exFlow 0 = .ok (rf, 1) ∧
      rf.running = false ∧ rf.stopToken = 0 ∧
      rf.nodes.length = exFlow.nodes.length ∧
      ∀ n ∈ exFlow.nodes, assocGet n.id rf.nodes = some (mkRuntimeNode exFlow n) :=
  ⟨rfl, by decide, spec_c3_prepare_ok exRegistry exFlow 0 rfl (by decide)⟩

/-- CLAIM C4: for a message whose headers and context maps are allocated (as
every message built by `NewMessage` is), `Clone` yields a fresh identifier,
an equal payload, and headers/context copied into newly allocated maps, so
that writing a header or context entry on the clone never changes the
original's headers/context and vice versa. -/
theorem spec_c4_clone_independent (m : Message) (st : MsgStore) (now : Nat)
    (rh rc : Nat)
    (hid : m.id < st.nextId)
    (hhr : m.headersRef = some rh) (hhlt : rh < st.hmaps.length)
    (hcr : m.contextRef = some rc) (hclt : rc < st.cmaps.length) :
    (m.clone now st).1.id ≠ m.id ∧
    (m.clone now st).1.payload = m.payload ∧
    (m.clone now st).1.headersRef ≠ m.headersRef ∧
    (m.clone now st).1.contextRef ≠ m.contextRef ∧
    headersOf (m.clone now st).1 (m.clone now st).2 = headersOf m st ∧
    contextOf (m.clone now st).1 (m.clone now st).2 = contextOf m st ∧
    (∀ k v,
      headersOf m (((m.clone now st).1.setHeader k v (m.clone now st).2).2) =
        headersOf m st) ∧
    (∀ k v,
      headersOf (m.clone now st).1 ((m.setHeader k v (m.clone now st).2).2) =
        headersOf (m.clone now st).1 (m.clone now st).2) ∧
    (∀ k v,
      contextOf m (((m.clone now st).1.setContext k v (m.clone now st).2).2) =
        contextOf m st) ∧
    (∀ k v,
      contextOf (m.clone now st).1 ((m.setContext k v (m.clone now st).2).2) =
        contextOf (m.clone now st).1 (m.clone now st).2) := by
  have hLh : st.hmaps.length ≠ rh := by omega
  have hLc : st.cmaps.length ≠ rc := by omega
  refine ⟨?_, rfl, ?_, ?_, ?_, ?_, ?_, ?_, ?_, ?_⟩
  · simp only [Message.clone]
    omega
  · simp [Message.clone, hhr]
    omega
  · simp [Message.clone, hcr]
    omega
  · simp [Message.clone, headersOf, hhr, List.getElem?_concat_length,
      List.getElem?_append_left hhlt]
  · simp [Message.clone, contextOf, hcr, List.getElem?_concat_length,
      List.getElem?_append_left hclt]
  · intro k v
    simp [Message.clone, Message.setHeader, headersOf, hhr,
      List.getElem?_set_ne hLh, List.getElem?_append_left hhlt]
  · intro k v
    simp [Message.clone, Message.setHeader, headersOf, hhr,
      List.getElem?_set_ne (Ne.symm hLh)]
  · intro k v
    simp [Message.clone, Message.setContext, contextOf, hcr,
      List.getElem?_set_ne hLc, List.getElem?_append_left hclt]
  · intro k v
    simp [Message.clone, Message.setContext, contextOf, hcr,
      List.getElem?_set_ne (Ne.symm hLc)]

/-- Witness for C4 at a concrete message and store. -/
theorem spec_c4_clone_independent_witness :
    exMsgC4.id < exStoreC4.nextId ∧
    exMsgC4.headersRef = some 0 ∧
    exMsgC4.contextRef = some 0 ∧
    headersOf (exMsgC4.clone 7 exStoreC4).1 (exMsgC4.clone 7 exStoreC4).2 =
      headersOf exMsgC4 exStoreC4 :=
  ⟨by decide, rfl, rfl,
    (spec_c4_clone_independent exMsgC4 exStoreC4 7 0 0 (by decide) rfl
      (by decide) rfl (by decide)).2.2.2.2.1⟩

/-! ## Helper lemmas about message distribution -/

theorem distribLoop_full_target (srcId : String) (msg : Message)
    (conns : List String) (nodes : List (String × RuntimeNode))
    (st : MsgStore) (now : Nat) (t : String) (tn : RuntimeNode)
    (ht : assocGet t nodes = some tn)
    (hfull : chanCapacity ≤ tn.inputChan.length) :
    assocGet t (distribLoop srcId msg conns nodes st now).1 = some tn ∧
    (t ∈ conns → LogEvent.warnQueueFull srcId t ∈
      (distribLoop srcId msg conns nodes st now).2.2) := by
  induction conns generalizing nodes st with
  | nil => exact ⟨ht, fun h => absurd h (List.not_mem_nil t)⟩
  | cons u rest ih =>
      cases hu : assocGet u nodes with
      | none =>
          simp only [distribLoop, hu]
          obtain ⟨h1, h2⟩ := ih nodes st ht
          refine ⟨h1, fun hmem => ?_⟩
          rcases List.mem_cons.mp hmem with he | hm
          · subst he
            rw [ht] at hu
            exact Option.noConfusion hu
          · exact List.mem_cons_of_mem _ (h2 hm)
      | some un =>
          by_cases hroom : un.inputChan.length < chanCapacity
          · have hne : u ≠ t := by
              intro he
              subst he
              rw [ht, Option.some.injEq] at hu
              subst hu
              omega
            have ht' : assocGet t
                (assocSet u
                  { un with inputChan :=
                      un.inputChan ++ [(msg.clone now st).1] } nodes) =
                some tn := by
              rw [assocGet_assocSet_ne _ _ _ _ (Ne.symm hne)]
              exact ht
            simp only [distribLoop, hu, if_pos hroom]
            obtain ⟨h1, h2⟩ := ih _ _ ht'
            refine ⟨h1, fun hmem => ?_⟩
            rcases List.mem_cons.mp hmem with he | hm
            · exact absurd he.symm hne
            · exact List.mem_cons_of_mem _ (h2 hm)
          · simp only [distribLoop, hu, if_neg hroom]
            obtain ⟨h1, h2⟩ := ih nodes _ ht
            refine ⟨h1, fun hmem => ?_⟩
            rcases List.mem_cons.mp hmem with he | hm
            · subst he
              exact List.mem_cons_self _ _
            · exact List.mem_cons_of_mem _ (h2 hm)

theorem distribLoop_notMem (srcId : String) (msg : Message)
    (conns : List String) (nodes : List (String × RuntimeNode))
    (st : MsgStore) (now : Nat) (u : String)
    (hu : u ∉ conns) :
    assocGet u (distribLoop srcId msg conns nodes st now).1 =
      assocGet u nodes := by
  induction conns generalizing nodes st with
  | nil => rfl
  | cons c rest ih =>
      have hne : u ≠ c := fun he => hu (by simp [he])
      have hrest : u ∉ rest := fun hm => hu (by simp [hm])
      cases hc : assocGet c nodes with
      | none =>
          simp only [distribLoop, hc]
          exact ih nodes st hrest
      | some cn =>
          by_cases hroom : cn.inputChan.length < chanCapacity
          · simp only [distribLoop, hc, if_pos hroom]
            rw [ih _ _ hrest, assocGet_assocSet_ne _ _ _ _ hne]
          · simp only [distribLoop, hc, if_neg hroom]
            exact ih nodes _ hrest

theorem distribLoop_enqueue (srcId : String) (msg : Message)
    (conns : List String) (nodes : List (String × RuntimeNode))
    (st : MsgStore) (now : Nat) (u : String) (un : RuntimeNode)
    (hnd : conns.Nodup) (hmem : u ∈ conns)
    (hu : assocGet u nodes = some un)
    (hroom : un.inputChan.length < chanCapacity) :
    ∃ cl, assocGet u (distribLoop srcId msg conns nodes st now).1 =
        some { un with inputChan := un.inputChan ++ [cl] } ∧
      cl.payload = msg.payload ∧ cl.topic = msg.topic ∧
      cl.source = msg.source := by
  induction conns generalizing nodes st with
  | nil => cases hmem
  | cons c rest ih =>
      rw [List.nodup_cons] at hnd
      rcases List.mem_cons.mp hmem with he | hm
      · subst he
        simp only [distribLoop, hu, if_pos hroom]
        refine ⟨(msg.clone now st).1, ?_, rfl, rfl, rfl⟩
        rw [distribLoop_notMem _ _ _ _ _ _ _ hnd.1]
        exact assocGet_assocSet_self _ _ _
      · have hne : c ≠ u := fun he => hnd.1 (he ▸ hm)
        cases hc : assocGet c nodes with
        | none =>
            simp only [distribLoop, hc]
            exact ih nodes st hnd.2 hm hu
        | some cn =>
            by_cases hcroom : cn.inputChan.length < chanCapacity
            · have hu' : assocGet u
                  (assocSet c
                    { cn with inputChan :=
                        cn.inputChan ++ [(msg.clone now st).1] } nodes) =
                  some un := by
                rw [assocGet_assocSet_ne _ _ _ _ (Ne.symm hne)]
                exact hu
              simp only [distribLoop, hc, if_pos hcroom]
              exact ih _ _ hnd.2 hm hu'
            · simp only [distribLoop, hc, if_neg hcroom]
              exact ih nodes _ hnd.2 hm hu

/-- CLAIM C5: for a message handed to `distributeMessage`, each recorded
downstream target receives a fresh clone through a non-blocking enqueue; a
target whose queue is full keeps its queue exactly as it was (the clone for
it is dropped) while only a queue-full warning is recorded — the function has
no error result at all — and the queues of nodes that are not recorded
targets are left unchanged. -/
theorem spec_c5_drop_on_full (src : RuntimeNode) (msg : Message)
    (nodes : List (String × RuntimeNode)) (st : MsgStore) (now : Nat)
    (t u : String) (tn un : RuntimeNode)
    (hnd : src.outputConnections.Nodup)
    (htm : t ∈ src.outputConnections)
    (ht : assocGet t nodes = some tn)
    (hfull : chanCapacity ≤ tn.inputChan.length)
    (hum : u ∈ src.outputConnections)
    (hu : assocGet u nodes = some un)
    (hroom : un.inputChan.length < chanCapacity) :
    assocGet t (distributeMessage src msg nodes st now).1 = some tn ∧
    LogEvent.warnQueueFull src.id t ∈
      (distributeMessage src msg nodes st now).2.2 ∧
    (∀ w, w ∉ src.outputConnections →
      assocGet w (distributeMessage src msg nodes st now).1 =
        assocGet w nodes) ∧
    ∃ cl, assocGet u (distributeMessage src msg nodes st now).1 =
        some { un with inputChan := un.inputChan ++ [cl] } ∧
      cl.payload = msg.payload := by
  obtain ⟨h1, h2⟩ := distribLoop_full_target src.id msg src.outputConnections
    nodes st now t tn ht hfull
  refine ⟨h1, h2 htm, ?_, ?_⟩
  · intro w hw
    exact distribLoop_notMem src.id msg _ nodes st now w hw
  · obtain ⟨cl, hcl, hp, -, -⟩ := distribLoop_enqueue src.id msg _ nodes st
      now u un hnd hum hu hroom
    exact ⟨cl, hcl, hp⟩

/-- Witness for C5: fan-out from `a` to a full `b` and an empty `c`, with
`d` unconnected. -/
theorem spec_c5_drop_on_full_witness :
    chanCapacity ≤ exRtB.inputChan.length ∧
    LogEvent.warnQueueFull "a" "b" ∈
      (distributeMessage exRtA exMsgC4 exNodesC5 exStoreC4 0).2.2 :=
  ⟨by decide,
    (spec_c5_drop_on_full exRtA exMsgC4 exNodesC5 exStoreC4 0 "b" "c" exRtB
      exRtC (by decide) (by decide) rfl (by decide) (by decide) rfl
      (by decide)).2.1⟩

/-- CLAIM C10: a flow whose nodes all carry registered block types but which
contains a connection with source port `-1` passes `ValidateFlow`: the port
check only rejects ports `≥` the declared count, never negative ones. -/
theorem spec_c10_negative_port_validates :
    exNegConn.sourcePort = -1 ∧
    exNegConn ∈ exNegFlow.connections ∧
    (∀ n ∈ exNegFlow.nodes, (getBlockInfoByType exRegistry n.type).isSome) ∧
    (validateFlow exRegistry exNegFlow).toOption = some () := by decide

/-- CLAIM C1 (corrected): a second direct `FlowExecutor.StartFlow` on a
Running flow fails with the already-running lifecycle error; the guarded
early return happens before any mutation, so the flow stays Running.  The
claim's extension to the prepare-and-start path fails: see
`spec_c1_counterexample`. -/
theorem spec_c1_start_already_running (flowId : String) (st : ExecutorState)
    (rf : RuntimeFlow)
    (h1 : assocGet flowId st.flows = some rf) (h2 : rf.running = true) :
    startFlow flowId st = .error (.alreadyRunning flowId) ∧
    getFlowStatus flowId st = .ok true := by
  constructor
  · simp [startFlow, h1, h2]
  · simp [getFlowStatus, h1, h2]

/-- Witness for C1 on the concrete running flow. -/
theorem spec_c1_start_already_running_witness :
    assocGet "flow1" exRun1.1.flows = some exRf1 ∧ exRf1.running = true ∧
    startFlow "flow1" exRun1.1 = .error (.alreadyRunning "flow1") :=
  ⟨rfl, by decide,
    (spec_c1_start_already_running "flow1" exRun1.1 exRf1 rfl (by decide)).1⟩

/-- Counterexample for C1: with `exFlow` Running after a first
prepare-and-start, a second `PrepareAndStartFlow` — the path
`Engine.StartFlow` uses — succeeds instead of failing with a lifecycle
error, replacing the stored runtime flow and doubling the live worker set
(the first run's two workers are orphaned, not stopped). -/
theorem spec_c1_counterexample :
    startIsOk (prepareAndStartFlow exRegistry exFlow newFlowExecutor) = true ∧
    (getFlowStatus "flow1" exRun1.1).toOption = some true ∧
    startIsOk (prepareAndStartFlow exRegistry exFlow exRun1.1) = true ∧
    exRun1.1.workers.length = 2 ∧
    exRun2.1.workers.length = 4 := by decide

/-- CLAIM C6 (code bug): the Input worker's ticker is hard-coded to fire
every 1000 ms (`time.NewTicker(1 * time.Second)`): it takes no input from
the node, so an inject node configured with `interval` 5000 still ticks at
1000 ms.  (The remaining tick behaviour — Execute with no input message,
forward every output, log-and-continue on error — is `runInputNodeTick`.) -/
theorem spec_c6_fixed_tick_interval :
    inputTickerIntervalMs = 1000 ∧
    assocGet "interval" exInjectNode.properties = some (.vnum 5000) ∧
    inputTickerIntervalMs ≠ 5000 := by decide

/-- CLAIM C7 (corrected): every Execute call made by a worker passes a
context carrying the node id, a logger, and the input message — the dequeued
head for Propagation/Action, none for Input — but the flow id is left empty,
no cancellation signal is installed (`Context` stays nil), and no state
store is provided (`State` stays nil). -/
theorem spec_c7_worker_ctx (execute : ExecuteFn) (node : RuntimeNode)
    (m : Message) (rest : List Message)
    (nodes : List (String × RuntimeNode)) (st : MsgStore) (now : Nat)
    (h : node.inputChan = m :: rest) :
    runPropagationStep execute node nodes st now =
      propagationDispatch execute (workerCtx node.id (some m))
        { node with inputChan := rest }
        (assocSet node.id { node with inputChan := rest } nodes) st now ∧
    runActionStep execute node nodes st =
      actionDispatch execute (workerCtx node.id (some m))
        { node with inputChan := rest }
        (assocSet node.id { node with inputChan := rest } nodes) st ∧
    runInputNodeTick execute node nodes st now =
      inputDispatch execute (workerCtx node.id none) node nodes st now ∧
    (workerCtx node.id (some m)).nodeId = node.id ∧
    (workerCtx node.id (some m)).message = some m ∧
    (workerCtx node.id (some m)).hasLogger = true ∧
    (workerCtx node.id (some m)).flowId = "" ∧
    (workerCtx node.id (some m)).goContext = none ∧
    (workerCtx node.id (some m)).state = none ∧
    (workerCtx node.id none).message = none := by
  refine ⟨?_, ?_, rfl, rfl, rfl, rfl, rfl, rfl, rfl, rfl⟩
  · simp [runPropagationStep, h]
  · simp [runActionStep, h]

/-- Witness for C7 at a concrete node with one queued message. -/
theorem spec_c7_worker_ctx_witness :
    exRtQ.inputChan = exMsgC4 :: [] ∧
    (workerCtx exRtQ.id (some exMsgC4)).flowId = "" :=
  ⟨rfl,
    (spec_c7_worker_ctx exExecNone exRtQ exMsgC4 [] [] exStoreC4 0
      rfl).2.2.2.2.2.2.1⟩

/-- Counterexample for C7: the action worker of flow `flow1`'s node `b`
passes Execute a context whose flow id is empty — not `flow1` — with no
cancellation signal and no state store. -/
theorem spec_c7_counterexample :
    exFlow.id = "flow1" ∧
    (workerCtx "b" (some exMsgC4)).flowId = "" ∧
    (("" : String) = "flow1" → False) ∧
    (workerCtx "b" (some exMsgC4)).goContext = none ∧
    (workerCtx "b" (some exMsgC4)).state = none ∧
    runActionStep exExecNone exRtQ [("b", exRtQ)] exStoreC4 =
      actionDispatch exExecNone (workerCtx "b" (some exMsgC4))
        { exRtQ with inputChan := [] }
        (assocSet "b" { exRtQ with inputChan := [] } [("b", exRtQ)])
        exStoreC4 := by
  refine ⟨rfl, rfl, by decide, rfl, rfl, rfl⟩

/-- CLAIM C8 (corrected): through the prepare-and-start path, a Start after
a Stop runs with a freshly allocated stop channel that has never fired; the
new worker set holds exactly that channel and no worker of any earlier run
holds it.  The direct `StartFlow` path instead reuses the already-closed
channel: see `spec_c8_counterexample`. -/
theorem spec_c8_fresh_signal (r : Registry) (f : Flow)
    (st st' : ExecutorState) (spawned : List ExecWorker)
    (hw : ∀ w ∈ st.workers, w.stopToken < st.nextToken)
    (hf : ∀ t ∈ st.firedTokens, t < st.nextToken)
    (h : prepareAndStartFlow r f st = .ok (st', spawned)) :
    (assocGet f.id st'.flows).map RuntimeFlow.stopToken =
      some st.nextToken ∧
    st.nextToken ∉ st.firedTokens ∧
    st'.firedTokens = st.firedTokens ∧
    (∀ w ∈ st.workers, w.stopToken ≠ st.nextToken) ∧
    (∀ w ∈ spawned, w.stopToken = st.nextToken) ∧
    st'.workers = st.workers ++ spawned := by
  cases hp : prepareFlow r f st.nextToken with
  | error e =>
      simp only [prepareAndStartFlow, hp] at h
      exact Except.noConfusion h
  | ok p =>
      obtain ⟨hst, hrun, -⟩ := prepareFlow_inv r f st.nextToken p.2 p.1 (by
        rw [hp])
      simp only [prepareAndStartFlow, hp, startFlow,
        assocGet_assocSet_self] at h
      rw [hrun] at h
      simp only [Bool.false_eq_true, if_false, Except.ok.injEq,
        Prod.mk.injEq] at h
      obtain ⟨h1, h2⟩ := h
      subst h1
      subst h2
      refine ⟨?_, ?_, rfl, ?_, ?_, rfl⟩
      · rw [assocGet_assocSet_self]
        simp [hst]
      · intro hmem
        exact absurd (hf _ hmem) (lt_irrefl _)
      · intro w hwmem he
        exact absurd (he ▸ hw w hwmem) (lt_irrefl _)
      · intro w hwmem
        obtain ⟨q, -, hq⟩ := List.mem_map.mp hwmem
        rw [← hq]
        exact hst

/-- Witness for C8 on the first prepare-and-start of the concrete flow. -/
theorem spec_c8_fresh_signal_witness :
    prepareAndStartFlow exRegistry exFlow newFlowExecutor =
      .ok (exRun1.1, exRun1.2) ∧
    exRun1.1.firedTokens = newFlowExecutor.firedTokens :=
  ⟨rfl,
    (spec_c8_fresh_signal exRegistry exFlow newFlowExecutor exRun1.1 exRun1.2
      (fun w hw => absurd hw (List.not_mem_nil w))
      (fun t ht => absurd ht (List.not_mem_nil t)) rfl).2.2.1⟩

/-- Counterexample for C8: after prepare-and-start then Stop, a direct
`FlowExecutor.StartFlow` succeeds but hands every newly spawned worker the
flow's existing stop channel, which has already been closed — the new
workers observe a signal that has already fired. -/
theorem spec_c8_counterexample :
    (stopFlow "flow1" exRun1.1).toOption = some exStop2 ∧
    startIsOk (startFlow "flow1" exStop2) = true ∧
    exRun3.2 ≠ [] ∧
    exRun3.2.all (fun w => exStop2.firedTokens.contains w.stopToken) =
      true := by decide

/-- CLAIM C9 (corrected): `TriggerFlow` ignores its message argument
entirely and just performs the Start operation (load, validate,
prepare-and-start); its result is the Start result and is independent of the
supplied payload. -/
theorem spec_c9_trigger_is_start (storage : List (String × Flow))
    (r : Registry) (flowId : String) (m1 m2 : Option Message)
    (st : ExecutorState) :
    engineTriggerFlow storage r flowId m1 st =
      engineStartFlow storage r flowId st ∧
    engineTriggerFlow storage r flowId m1 st =
      engineTriggerFlow storage r flowId m2 st :=
  ⟨rfl, rfl⟩

/-- Counterexample for C9: triggering with payload 42 starts the flow, but
the payload never enters the graph — every input queue of the resulting
state is empty — and the result is identical to triggering with payload 7.
-/
theorem spec_c9_counterexample :
    exMsg42.payload = .vnum 42 ∧ exMsg7.payload = .vnum 7 ∧
    startIsOk (engineTriggerFlow exStorage exRegistry "flow1" (some exMsg42)
      newFlowExecutor) = true ∧
    allQueuesEmpty exTrig42.1 = true ∧
    engineTriggerFlow exStorage exRegistry "flow1" (some exMsg42)
        newFlowExecutor =
      engineTriggerFlow exStorage exRegistry "flow1" (some exMsg7)
        newFlowExecutor :=
  ⟨rfl, rfl, by decide, by decide, rfl⟩

end BlockFlow
